import Mathlib

/-!
Shallow embedding of the edgedb-python C datatypes core
(the `edgedb/datatypes`, `edgedb/protocol/datatypes` and `gel/datatypes`
C sources): shape descriptors, fixed-shape containers (Tuple, NamedTuple,
Object, Record, SparseObject, Array), Set, Link, and the generic
hash/compare helpers.

Host (CPython) values are modelled by a type `V`; host equality and the
natural ordering used by list sorting are modelled by `DecidableEq` /
`LinearOrder` instances, and host hashing by an explicit function
`V → Nat` whose results are reduced modulo `2 ^ 64`.
-/

/-- The six comparison operators of the CPython rich-compare protocol
(`Py_EQ`, `Py_NE`, `Py_LT`, `Py_GT`, `Py_LE`, `Py_GE`). -/
inductive CmpOp where
  | eq | ne | lt | gt | le | ge
deriving DecidableEq, Repr

/-- Recoverable CPython exceptions raised by the datatypes core
(`PyExc_TypeError`, `PyExc_KeyError`, `PyExc_ValueError`,
`PyExc_OverflowError`, `PyExc_LookupError`), with their message. -/
inductive PyErr where
  | typeError (msg : String)
  | keyError (msg : String)
  | valueError (msg : String)
  | overflowError (msg : String)
  | lookupError (msg : String)
deriving DecidableEq, Repr

/-- `EDGE_MAX_TUPLE_SIZE` = `0x4000 - 1` from `datatypes.h`. -/
def EDGE_MAX_TUPLE_SIZE : Nat := 0x4000 - 1

/-- `EDGE_POINTER_IS_IMPLICIT` = `1 << 0` from `datatypes.h`. -/
def EDGE_POINTER_IS_IMPLICIT : Nat := 1

/-- `EDGE_POINTER_IS_LINKPROP` = `1 << 1` from `datatypes.h`. -/
def EDGE_POINTER_IS_LINKPROP : Nat := 2

/-- `EDGE_POINTER_IS_LINK` = `1 << 2` from `datatypes.h`. -/
def EDGE_POINTER_IS_LINK : Nat := 4

/-- A CPython dict with string keys and `Nat` values, modelled as an
association list in insertion order.  `PyDict_SetItem` replaces the value
of an existing key in place. -/
def dictSet (d : List (String × Nat)) (k : String) (v : Nat) :
    List (String × Nat) :=
  match d with
  | [] => [(k, v)]
  | (k', v') :: rest =>
    if k' = k then (k, v) :: rest else (k', v') :: dictSet rest k v

/-- `PyDict_GetItem` on the association-list dict model. -/
def dictGet (d : List (String × Nat)) (k : String) : Option Nat :=
  match d with
  | [] => none
  | (k', v') :: rest => if k' = k then some v' else dictGet rest k

theorem dictGet_dictSet (d : List (String × Nat)) (k key : String) (v : Nat) :
    dictGet (dictSet d k v) key = if key = k then some v else dictGet d key := by
  induction d with
  | nil =>
    by_cases h : key = k
    · subst h
      simp [dictSet, dictGet]
    · simp [dictSet, dictGet, h, Ne.symm h]
  | cons hd tl ih =>
    obtain ⟨k', v'⟩ := hd
    by_cases h1 : k' = k
    · subst h1
      by_cases h2 : key = k'
      · subst h2
        simp [dictSet, dictGet]
      · simp [dictSet, dictGet, h2, Ne.symm h2]
    · by_cases h2 : k' = key
      · subst h2
        simp [dictSet, dictGet, h1]
      · simp [dictSet, dictGet, h1, h2, ih]

/-- Result of `EdgeRecordDesc_Lookup` (`edge_attr_lookup_t` together with
its `pos` out-parameter).  `L_ERROR` arises only from host-level failures
(string hashing cannot fail in the model) and therefore has no
constructor here. -/
inductive AttrLookup where
  | notFound
  | property (pos : Nat)
  | linkprop (pos : Nat)
  | link (pos : Nat)
deriving DecidableEq, Repr

/-- The `RecordDescriptor` object (`EdgeRecordDescObject`): ordered field
names, per-position flag bitsets (`posbits`), the name→position dict
`index`, and the cached position `idpos` of a field named `"id"`
(`-1` when absent). -/
structure EdgeRecordDesc where
  names : List String
  posbits : List Nat
  index : List (String × Nat)
  idpos : Int
deriving DecidableEq, Repr

/-- `EdgeRecordDesc_GetSize`: the declared size of the shape. -/
def descSize (d : EdgeRecordDesc) : Nat := d.names.length

/-- The construction loop of `EdgeRecordDesc_New` (record_desc.c): walks
the names in order; when a `flags` tuple was supplied, records the
position of the name `"id"` (last occurrence wins) and rejects flag
values above 128 with an `OverflowError`; inserts each name into the
index dict (so a duplicated name keeps its last position).  Returns the
final index and `idpos`. -/
def recdescLoop (flags? : Option (List Nat)) :
    List String → Nat → List (String × Nat) → Int →
    Except PyErr (List (String × Nat) × Int)
  | [], _, index, idpos => .ok (index, idpos)
  | key :: rest, i, index, idpos =>
    match flags? with
    | some flags =>
      let idpos' : Int := if key = "id" then (i : Int) else idpos
      let flag := flags.getD i 0
      if flag > 128 then
        .error (.overflowError "invalid name flag")
      else
        recdescLoop flags? rest (i + 1) (dictSet index key i) idpos'
    | none =>
      recdescLoop flags? rest (i + 1) (dictSet index key i) idpos

/-- `EdgeRecordDesc_New(names, flags)` from
`edgedb/protocol/datatypes/record_desc.c`: fails when there are more than
`EDGE_MAX_TUPLE_SIZE` names or when the flags tuple length does not match;
otherwise builds the index dict and, only when `flags` is supplied, scans
for the `"id"` name.  When `flags` is absent the flag array stays
zero-initialised (`calloc`). -/
def EdgeRecordDesc_New (names : List String) (flags? : Option (List Nat)) :
    Except PyErr EdgeRecordDesc :=
  if names.length > EDGE_MAX_TUPLE_SIZE then
    .error (.valueError "EdgeDB does not supports tuples with more than 16383 elements")
  else
    match flags? with
    | some flags =>
      if flags.length ≠ names.length then
        .error (.typeError "RecordDescriptor the flags tuple to be the same length as the names tuple")
      else
        match recdescLoop (some flags) names 0 [] (-1) with
        | .error e => .error e
        | .ok (index, idpos) => .ok ⟨names, flags, index, idpos⟩
    | none =>
      match recdescLoop none names 0 [] (-1) with
      | .error e => .error e
      | .ok (index, idpos) =>
        .ok ⟨names, List.replicate names.length 0, index, idpos⟩

/-- `EdgeRecordDesc_Lookup`: position from the index dict, then a
classification computed from that position's flag bitset, checking the
`LINKPROP` bit before the `LINK` bit. -/
def EdgeRecordDesc_Lookup (d : EdgeRecordDesc) (key : String) : AttrLookup :=
  match dictGet d.index key with
  | none => .notFound
  | some pos =>
    let bits := d.posbits.getD pos 0
    if bits &&& EDGE_POINTER_IS_LINKPROP ≠ 0 then .linkprop pos
    else if bits &&& EDGE_POINTER_IS_LINK ≠ 0 then .link pos
    else .property pos

/-- Index of the last occurrence of `key` in `names`, the position that a
CPython dict built by inserting every name in order associates to a
(possibly duplicated) name. -/
def lastIdxOfAux (names : List String) (key : String) : Option Nat :=
  match names with
  | [] => none
  | k :: rest =>
    match lastIdxOfAux rest key with
    | some p => some (p + 1)
    | none => if k = key then some 0 else none

theorem recdescLoop_index_spec (flags? : Option (List Nat))
    (names : List String) :
    ∀ i acc idp idx idp', recdescLoop flags? names i acc idp = .ok (idx, idp') →
    ∀ key, dictGet idx key =
      (match lastIdxOfAux names key with
       | some p => some (p + i)
       | none => dictGet acc key) := by
  induction names with
  | nil =>
    intro i acc idp idx idp' h key
    simp only [recdescLoop] at h
    obtain ⟨h1, _⟩ : idx = acc ∧ idp' = idp := by
      cases h; exact ⟨rfl, rfl⟩
    subst h1
    simp [lastIdxOfAux]
  | cons hd tl ih =>
    intro i acc idp idx idp' h key
    match flags? with
    | some flags =>
      simp only [recdescLoop] at h
      split at h
      · simp at h
      · have hrec := ih (i + 1) (dictSet acc hd i)
          (if hd = "id" then (i : Int) else idp) idx idp' h key
        rw [hrec, dictGet_dictSet]
        simp only [lastIdxOfAux]
        cases hlast : lastIdxOfAux tl key with
        | some p =>
          simp only [hlast, Option.some.injEq]
          omega
        | none =>
          by_cases hk : hd = key
          · subst hk
            simp [hlast]
          · have hk' : ¬ key = hd := fun h' => hk h'.symm
            simp [hlast, hk, hk']
    | none =>
      simp only [recdescLoop] at h
      have hrec := ih (i + 1) (dictSet acc hd i) idp idx idp' h key
      rw [hrec, dictGet_dictSet]
      simp only [lastIdxOfAux]
      cases hlast : lastIdxOfAux tl key with
      | some p =>
        simp only [hlast, Option.some.injEq]
        omega
      | none =>
        by_cases hk : hd = key
        · subst hk
          simp [hlast]
        · have hk' : ¬ key = hd := fun h' => hk h'.symm
          simp [hlast, hk, hk']

theorem recdescLoop_none_ok (names : List String) :
    ∀ i acc idp, ∃ idx, recdescLoop none names i acc idp = .ok (idx, idp) := by
  induction names with
  | nil =>
    intro i acc idp
    exact ⟨acc, rfl⟩
  | cons hd tl ih =>
    intro i acc idp
    simpa [recdescLoop] using ih (i + 1) (dictSet acc hd i) idp

theorem lastIdxOfAux_isSome_of_mem (names : List String) (key : String)
    (h : key ∈ names) : (lastIdxOfAux names key).isSome = true := by
  induction names with
  | nil => simp at h
  | cons hd tl ih =>
    simp only [lastIdxOfAux]
    cases hlast : lastIdxOfAux tl key with
    | some p => simp
    | none =>
      rcases List.mem_cons.mp h with h1 | h2
      · simp [h1.symm]
      · have := ih h2
        rw [hlast] at this
        simp at this

/-- C3: on a descriptor built by `EdgeRecordDesc_New` with a flags tuple,
looking up any name present in the index returns the stored position (the
last occurrence of the name, since later dict insertions win) together
with a classification computed only from that position's flags bitset,
with precedence LinkProp over Link over Property: the `LINKPROP` bit
yields `linkprop` even when the `LINK` bit is also set, otherwise the
`LINK` bit yields `link`, otherwise `property`; a name not in the index
yields `notFound`. -/
theorem c3_lookup_classification (names : List String) (flags : List Nat)
    (d : EdgeRecordDesc) (h : EdgeRecordDesc_New names (some flags) = .ok d)
    (key : String) :
    EdgeRecordDesc_Lookup d key =
      (match lastIdxOfAux names key with
       | none => .notFound
       | some p =>
         if (flags.getD p 0) &&& EDGE_POINTER_IS_LINKPROP ≠ 0 then .linkprop p
         else if (flags.getD p 0) &&& EDGE_POINTER_IS_LINK ≠ 0 then .link p
         else .property p) := by
  simp only [EdgeRecordDesc_New] at h
  split at h
  · simp at h
  · split at h
    · simp at h
    · cases hrec : recdescLoop (some flags) names 0 [] (-1) with
      | error e =>
        rw [hrec] at h
        simp at h
      | ok pr =>
        obtain ⟨idx, idp⟩ := pr
        rw [hrec] at h
        simp only [Except.ok.injEq] at h
        subst h
        have hidx := recdescLoop_index_spec (some flags) names 0 [] (-1)
          idx idp hrec key
        unfold EdgeRecordDesc_Lookup
        simp only
        rw [hidx]
        cases hlast : lastIdxOfAux names key with
        | none => simp [dictGet]
        | some p => simp

/-- Witness for C3: the spec scenario descriptor with names
`("id", "name", "@since")` and flags `(0, 0, LINKPROP)`. -/
theorem c3_lookup_classification_witness :
    EdgeRecordDesc_Lookup
      ⟨["id", "name", "@since"], [0, 0, 2],
       [("id", 0), ("name", 1), ("@since", 2)], 0⟩ "name" = .property 1 ∧
    EdgeRecordDesc_Lookup
      ⟨["id", "name", "@since"], [0, 0, 2],
       [("id", 0), ("name", 1), ("@since", 2)], 0⟩ "@since" = .linkprop 2 ∧
    EdgeRecordDesc_Lookup
      ⟨["id", "name", "@since"], [0, 0, 2],
       [("id", 0), ("name", 1), ("@since", 2)], 0⟩ "missing" = .notFound := by
  refine ⟨?_, ?_, ?_⟩
  · exact (c3_lookup_classification ["id", "name", "@since"] [0, 0, 2] _
      (by rfl) "name").trans (by rfl)
  · exact (c3_lookup_classification ["id", "name", "@since"] [0, 0, 2] _
      (by rfl) "@since").trans (by rfl)
  · exact (c3_lookup_classification ["id", "name", "@since"] [0, 0, 2] _
      (by rfl) "missing").trans (by rfl)

/-- A (published) `EdgeObject`: a shared record descriptor plus the
positional item slots. -/
structure EdgeObj (V : Type) where
  desc : EdgeRecordDesc
  items : List V
deriving DecidableEq, Repr

/-- `EdgeObject_New` from `edgedb/datatypes/object.c`: refuses a
descriptor whose cached id position is negative, then enforces the
maximum size; fresh slots are zero-initialised (`none`). -/
def EdgeObject_New (V : Type) (desc : EdgeRecordDesc) :
    Except PyErr (EdgeObj (Option V)) :=
  if desc.idpos < 0 then
    .error (.valueError "Cannot create Object without id field")
  else if descSize desc > EDGE_MAX_TUPLE_SIZE then
    .error (.valueError "Cannot create Object with more than 16383 elements")
  else
    .ok ⟨desc, List.replicate (descSize desc) none⟩

/-- C9: a descriptor constructed with the flags argument absent never
records an id position (its `idpos` stays `-1`) even when some name
equals `"id"`, because the `"id"` scan lives in the flags-processing
branch; consequently `EdgeObject_New` on such a descriptor always fails
with the cannot-create-Object-without-id validation error, although the
descriptor's index itself resolves the name `"id"`. -/
theorem c9_noflags_never_id (V : Type) (names : List String)
    (d : EdgeRecordDesc) (h : EdgeRecordDesc_New names none = .ok d) :
    d.idpos = -1 ∧
    EdgeObject_New V d =
      .error (.valueError "Cannot create Object without id field") ∧
    ("id" ∈ names → (dictGet d.index "id").isSome = true) := by
  simp only [EdgeRecordDesc_New] at h
  split at h
  · simp at h
  · obtain ⟨idx, hrec⟩ := recdescLoop_none_ok names 0 [] (-1)
    rw [hrec] at h
    simp only [Except.ok.injEq] at h
    subst h
    refine ⟨rfl, ?_, ?_⟩
    · unfold EdgeObject_New
      norm_num
    · intro hmem
      have hidx := recdescLoop_index_spec none names 0 [] (-1) idx (-1)
        hrec "id"
      have hsome := lastIdxOfAux_isSome_of_mem names "id" hmem
      simp only
      rw [hidx]
      cases hlast : lastIdxOfAux names "id" with
      | none =>
        rw [hlast] at hsome
        simp at hsome
      | some p => simp

/-- Witness for C9: the one-field descriptor with name tuple `("id",)`
and no flags. -/
theorem c9_noflags_never_id_witness :
    (⟨["id"], [0], [("id", 0)], -1⟩ : EdgeRecordDesc).idpos = -1 ∧
    EdgeObject_New Unit ⟨["id"], [0], [("id", 0)], -1⟩ =
      .error (.valueError "Cannot create Object without id field") ∧
    ("id" ∈ ["id"] →
      (dictGet (⟨["id"], [0], [("id", 0)], -1⟩ : EdgeRecordDesc).index
        "id").isSome = true) :=
  c9_noflags_never_id Unit ["id"] _ (by rfl)

/-- The host runtime's rich comparison (`PyObject_RichCompare`) on
mutually comparable values, modelled through the value type's natural
linear order. -/
def hostCmp {V : Type} [LinearOrder V] (a b : V) : CmpOp → Bool
  | .eq => decide (a = b)
  | .ne => decide (a ≠ b)
  | .lt => decide (a < b)
  | .gt => decide (b < a)
  | .le => decide (a ≤ b)
  | .ge => decide (b ≤ a)

/-- The value at an object's cached id position (`EdgeObject_GetID`
without the bounds failure; the `default` is never reached when the
position is valid). -/
def objectIdVal {V : Type} [Inhabited V] (o : EdgeObj V) : V :=
  o.items.getD o.desc.idpos.toNat default

/-- `object_richcompare` from `edgedb/datatypes/object.c`: both id
positions must be non-negative and in bounds, else a `TypeError`;
otherwise the result is the host rich comparison of the two id values
alone. -/
def object_richcompare {V : Type} [LinearOrder V] [Inhabited V]
    (v w : EdgeObj V) (op : CmpOp) : Except PyErr Bool :=
  let v_id_pos := v.desc.idpos
  let w_id_pos := w.desc.idpos
  if v_id_pos < 0 ∨ w_id_pos < 0 ∨
      (v.items.length : Int) ≤ v_id_pos ∨ (w.items.length : Int) ≤ w_id_pos then
    .error (.typeError "invalid object ID field offset")
  else
    .ok (hostCmp (objectIdVal v) (objectIdVal w) op)

/-- Valid cached id position: non-negative and within the item slots. -/
def validIdPos {V : Type} (o : EdgeObj V) : Prop :=
  0 ≤ o.desc.idpos ∧ o.desc.idpos < (o.items.length : Int)

instance {V : Type} (o : EdgeObj V) : Decidable (validIdPos o) := by
  unfold validIdPos
  infer_instance

/-- C1: when both objects' descriptors carry a valid, in-bounds id
position, `O1 == O2` succeeds and returns true exactly when the values at
the two id positions are equal — all other field values are unconstrained
and irrelevant; when either id position is missing or out of bounds, the
comparison fails with the invalid-id-offset `TypeError` instead of
returning a result. -/
theorem c1_object_eq_by_id {V : Type} [LinearOrder V] [Inhabited V]
    (v w : EdgeObj V) :
    (validIdPos v → validIdPos w →
      (object_richcompare v w .eq = .ok true ↔ objectIdVal v = objectIdVal w)) ∧
    (¬ (validIdPos v ∧ validIdPos w) →
      object_richcompare v w .eq =
        .error (.typeError "invalid object ID field offset")) := by
  constructor
  · intro hv hw
    obtain ⟨hv1, hv2⟩ := hv
    obtain ⟨hw1, hw2⟩ := hw
    unfold object_richcompare
    rw [if_neg (by omega)]
    simp [hostCmp]
  · intro hbad
    unfold object_richcompare
    rw [if_pos]
    unfold validIdPos at hbad
    omega

/-- Witness for C1: two objects sharing the id value `5` but differing in
every other field compare equal. -/
theorem c1_object_eq_by_id_witness :
    object_richcompare (V := Int)
      ⟨⟨["id", "name"], [0, 0], [("id", 0), ("name", 1)], 0⟩, [5, 10]⟩
      ⟨⟨["id", "name"], [0, 0], [("id", 0), ("name", 1)], 0⟩, [5, 99]⟩
      .eq = .ok true :=
  ((c1_object_eq_by_id
      ⟨⟨["id", "name"], [0, 0], [("id", 0), ("name", 1)], 0⟩, [5, 10]⟩
      ⟨⟨["id", "name"], [0, 0], [("id", 0), ("name", 1)], 0⟩, [5, 99]⟩).1
    (by constructor <;> decide) (by constructor <;> decide)).mpr (by rfl)

/-- `EdgeTuple_New` from `edgedb/datatypes/tuple.c`: only the maximum
size is validated; fresh slots are zero-initialised. -/
def EdgeTuple_New (V : Type) (size : Nat) : Except PyErr (List (Option V)) :=
  if size > EDGE_MAX_TUPLE_SIZE then
    .error (.valueError "Cannot create Tuple with more than 16383 elements")
  else
    .ok (List.replicate size none)

/-- `EdgeNamedTuple_New` (namedtuple.c): size taken from the descriptor
attached to the derived type, then the same maximum-size validation. -/
def EdgeNamedTuple_New (V : Type) (desc : EdgeRecordDesc) :
    Except PyErr (List (Option V)) :=
  if descSize desc > EDGE_MAX_TUPLE_SIZE then
    .error (.valueError "Cannot create NamedTuple with more than 16383 elements")
  else
    .ok (List.replicate (descSize desc) none)

/-- `EdgeRecord_New` (record.c): maximum-size validation (the C source
reuses the Object wording in its message). -/
def EdgeRecord_New (V : Type) (desc : EdgeRecordDesc) :
    Except PyErr (List (Option V)) :=
  if descSize desc > EDGE_MAX_TUPLE_SIZE then
    .error (.valueError "Cannot create Object with more than 16383 elements")
  else
    .ok (List.replicate (descSize desc) none)

/-- The lighter `InputShape` descriptor used by SparseObject: names and
name→position index only. -/
structure EdgeInputShape where
  names : List String
  index : List (String × Nat)
deriving DecidableEq, Repr

/-- `EdgeInputShape_GetSize`. -/
def inputShapeSize (s : EdgeInputShape) : Nat := s.names.length

/-- `EdgeSparseObject_New` (sparse_object.c): maximum-size validation
against the InputShape size (its message also uses the Object wording). -/
def EdgeSparseObject_New (V : Type) (desc : EdgeInputShape) :
    Except PyErr (List (Option V)) :=
  if inputShapeSize desc > EDGE_MAX_TUPLE_SIZE then
    .error (.valueError "Cannot create Object with more than 16383 elements")
  else
    .ok (List.replicate (inputShapeSize desc) none)

/-- `EdgeArray_New` from `edgedb/protocol/datatypes/array.c`: the
constructor performs no maximum-size validation at all — it goes straight
to the freelist allocation. -/
def EdgeArray_New (V : Type) (size : Nat) : Except PyErr (List (Option V)) :=
  .ok (List.replicate size none)

/-- Counterexample for C4: `EdgeArray_New` with declared size
`16384 > 16383` succeeds instead of failing with a validation error, so
the claim is false for the Array container kind. -/
theorem c4_size_limit_counterexample :
    EdgeArray_New Unit (EDGE_MAX_TUPLE_SIZE + 1) =
      .ok (List.replicate (EDGE_MAX_TUPLE_SIZE + 1) none) := rfl

/-- C4 (amended): for every declared size above 16383, the Tuple,
NamedTuple, Object, Record and SparseObject constructors fail with a
recoverable `ValueError`, while `EdgeArray_New` performs no size
validation and succeeds. -/
theorem c4_size_limit_amended (V : Type) (n : Nat)
    (hn : n > EDGE_MAX_TUPLE_SIZE) :
    EdgeTuple_New V n =
      .error (.valueError "Cannot create Tuple with more than 16383 elements") ∧
    (∀ d : EdgeRecordDesc, descSize d = n → EdgeNamedTuple_New V d =
      .error (.valueError "Cannot create NamedTuple with more than 16383 elements")) ∧
    (∀ d : EdgeRecordDesc, 0 ≤ d.idpos → descSize d = n → EdgeObject_New V d =
      .error (.valueError "Cannot create Object with more than 16383 elements")) ∧
    (∀ d : EdgeRecordDesc, descSize d = n → EdgeRecord_New V d =
      .error (.valueError "Cannot create Object with more than 16383 elements")) ∧
    (∀ s : EdgeInputShape, inputShapeSize s = n → EdgeSparseObject_New V s =
      .error (.valueError "Cannot create Object with more than 16383 elements")) ∧
    EdgeArray_New V n = .ok (List.replicate n none) := by
  refine ⟨?_, ?_, ?_, ?_, ?_, rfl⟩
  · unfold EdgeTuple_New
    rw [if_pos hn]
  · intro d hd
    unfold EdgeNamedTuple_New
    rw [hd, if_pos hn]
  · intro d hid hd
    unfold EdgeObject_New
    rw [if_neg (by omega), hd, if_pos hn]
  · intro d hd
    unfold EdgeRecord_New
    rw [hd, if_pos hn]
  · intro s hs
    unfold EdgeSparseObject_New
    rw [hs, if_pos hn]

/-- Witness for C4: size `16384` on each checked constructor and on the
unchecked Array constructor. -/
theorem c4_size_limit_amended_witness :
    EdgeTuple_New Unit 16384 =
      .error (.valueError "Cannot create Tuple with more than 16383 elements") ∧
    EdgeObject_New Unit ⟨List.replicate 16384 "x", [], [], 0⟩ =
      .error (.valueError "Cannot create Object with more than 16383 elements") ∧
    EdgeArray_New Unit 16384 = .ok (List.replicate 16384 none) := by
  obtain ⟨h1, _, h3, _, _, h6⟩ := c4_size_limit_amended Unit 16384 (by decide)
  exact ⟨h1, h3 ⟨List.replicate 16384 "x", [], [], 0⟩ (by decide)
    (by simp only [descSize, List.length_replicate]), h6⟩

/-- `PY_SSIZE_T_MAX` on a 64-bit host, the `stop` bound produced by
`PySlice_Unpack` for an open-ended slice such as `t[:]`. -/
def PY_SSIZE_T_MAX : Int := 2 ^ 63 - 1

/-- The index-clamping step of CPython's `PySlice_AdjustIndices`:
negative indices wrap by the length, then everything is clamped into
range (the clamp target depends on the step sign). -/
def sliceAdjClamp (length idx step : Int) : Int :=
  if idx < 0 then
    (if idx + length < 0 then (if step < 0 then -1 else 0)
     else idx + length)
  else
    (if idx ≥ length then (if step < 0 then length - 1 else length)
     else idx)

/-- The slice-length computation of `PySlice_AdjustIndices`, applied to
the already-clamped `start` and `stop`. -/
def sliceLenOf (start1 stop1 step : Int) : Int :=
  if step < 0 then
    (if stop1 < start1 then (start1 - stop1 - 1) / (-step) + 1 else 0)
  else
    (if start1 < stop1 then (stop1 - start1 - 1) / step + 1 else 0)

/-- `PySlice_AdjustIndices(length, &start, &stop, step)` from CPython:
clamps `start` and `stop` into range and returns
`(start, stop, slicelength)`. -/
def pySliceAdjustIndices (length start stop step : Int) :
    Int × Int × Int :=
  (sliceAdjClamp length start step, sliceAdjClamp length stop step,
   sliceLenOf (sliceAdjClamp length start step)
     (sliceAdjClamp length stop step) step)

/-- Result of `tuple_getslice`: either the very same instance (the C
code returns `o` itself, increfed, without copying) or a freshly
allocated tuple with the given items. -/
inductive SliceRes (V : Type) where
  | same
  | newTup (items : List V)
deriving DecidableEq, Repr

/-- The element-copy loop of `tuple_getslice`
(`for (cur = start, i = 0; i < slicelength; cur += step, i++)`). -/
def sliceGather {V : Type} [Inhabited V] (items : List V) (step : Int) :
    Nat → Int → List V
  | 0, _ => []
  | n + 1, cur => items.getD cur.toNat default :: sliceGather items step n (cur + step)

/-- `tuple_getslice` from `edgedb/datatypes/tuple.c`: non-positive slice
length yields a fresh empty tuple; a whole-range step-1 slice returns the
same instance without copying; anything else copies the selected
elements into a fresh tuple. -/
def tuple_getslice {V : Type} [Inhabited V] (items : List V)
    (start stop step : Int) : SliceRes V :=
  let size : Int := items.length
  let adj := pySliceAdjustIndices size start stop step
  let start1 := adj.1
  let slicelength := adj.2.2
  if slicelength ≤ 0 then .newTup []
  else if start1 = 0 ∧ step = 1 ∧ slicelength = size then .same
  else .newTup (sliceGather items step slicelength.toNat start1)

/-- Result of `tuple_concat`: the left operand returned unchanged, the
right operand returned unchanged, or a freshly allocated tuple. -/
inductive ConcatRes (V : Type) where
  | left
  | right
  | newTup (items : List V)
deriving DecidableEq, Repr

/-- `tuple_concat` from `edgedb/datatypes/tuple.c` (both operands already
checked to be `edgedb.Tuple`): an empty left operand returns the right
operand unchanged, an empty right operand returns the left operand
unchanged, otherwise the elements are copied into a fresh tuple (the
`size == 0` test after both emptiness checks is kept from the C source
although it can no longer fire). -/
def tuple_concat {V : Type} (self other : List V) : ConcatRes V :=
  if self.length = 0 then .right
  else if other.length = 0 then .left
  else if self.length + other.length = 0 then .newTup []
  else .newTup (self ++ other)

theorem sliceAdjClamp_start_full (L : Int) (h1 : 0 < L) :
    sliceAdjClamp L 0 1 = 0 := by
  unfold sliceAdjClamp
  rw [if_neg (by omega), if_neg (by omega)]

theorem sliceAdjClamp_stop_full (L : Int) (h1 : 0 < L)
    (h2 : L ≤ PY_SSIZE_T_MAX) :
    sliceAdjClamp L PY_SSIZE_T_MAX 1 = L := by
  unfold sliceAdjClamp PY_SSIZE_T_MAX
  unfold PY_SSIZE_T_MAX at h2
  rw [if_neg (by omega), if_pos (by omega), if_neg (by omega)]

theorem pySliceAdjustIndices_full (L : Int) (h1 : 0 < L)
    (h2 : L ≤ PY_SSIZE_T_MAX) :
    pySliceAdjustIndices L 0 PY_SSIZE_T_MAX 1 = (0, L, L) := by
  unfold pySliceAdjustIndices
  rw [sliceAdjClamp_start_full L h1, sliceAdjClamp_stop_full L h1 h2]
  unfold sliceLenOf
  rw [if_neg (by omega), if_pos (by omega)]
  have hdiv : (L - 0 - 1) / 1 + 1 = L := by
    simp
  rw [hdiv]

/-- Counterexample for C5: the whole-range slice of the empty tuple
takes the `slicelength <= 0` branch and returns a freshly allocated
empty tuple, not the same instance, so `T[:] is T` fails at `T = ()`. -/
theorem c5_identity_counterexample :
    tuple_getslice ([] : List Int) 0 PY_SSIZE_T_MAX 1 = .newTup [] ∧
    (SliceRes.newTup ([] : List Int)) ≠ SliceRes.same := by
  constructor
  · rfl
  · simp

/-- C5 (amended): for every non-empty Tuple, the whole-range step-1 slice
`T[:]` returns the very same instance without copying (the empty tuple
instead yields a fresh empty tuple); and concatenation with the empty
tuple on either side returns the existing non-empty operand unchanged
without copying. -/
theorem c5_slice_concat_amended {V : Type} [Inhabited V] (items : List V)
    (h : items ≠ []) (hsize : (items.length : Int) ≤ PY_SSIZE_T_MAX) :
    tuple_getslice items 0 PY_SSIZE_T_MAX 1 = .same ∧
    tuple_concat items ([] : List V) = .left ∧
    tuple_concat ([] : List V) items = .right := by
  have hlen : 0 < items.length := List.length_pos.mpr h
  have hlen' : (0 : Int) < items.length := by exact_mod_cast hlen
  refine ⟨?_, ?_, ?_⟩
  · simp only [tuple_getslice]
    rw [pySliceAdjustIndices_full _ hlen' hsize]
    simp only
    rw [if_neg (by omega), if_pos (by simp)]
  · unfold tuple_concat
    have h0 : items.length ≠ 0 := Nat.pos_iff_ne_zero.mp hlen
    simp [h0]
  · unfold tuple_concat
    simp

/-- Witness for C5 (amended): the one-element tuple `(3,)`. -/
theorem c5_slice_concat_amended_witness :
    tuple_getslice [(3 : Int)] 0 PY_SSIZE_T_MAX 1 = .same ∧
    tuple_concat [(3 : Int)] ([] : List Int) = .left ∧
    tuple_concat ([] : List Int) [(3 : Int)] = .right :=
  c5_slice_concat_amended [(3 : Int)] (by simp) (by decide)

/-- The scanning loop of `_EdgeGeneric_RichCompareValues` (comp.c): walk
both sequences in lockstep, stopping at the first pair whose host
equality test is false (`break`) or fails (`return NULL`, modelled as
`none`); `some none` means the common length was exhausted with all
pairs equal. -/
def rcWalk {V : Type} (eqv : V → V → Option Bool) :
    List V → List V → Option (Option (V × V))
  | [], _ => some none
  | _ :: _, [] => some none
  | a :: l, b :: r =>
    match eqv a b with
    | none => none
    | some true => rcWalk eqv l r
    | some false => some (some (a, b))

/-- The post-loop length-comparison switch of
`_EdgeGeneric_RichCompareValues`. -/
def lengthCmpBool (n m : Nat) : CmpOp → Bool
  | .eq => decide (n = m)
  | .ne => decide (n ≠ m)
  | .lt => decide (n < m)
  | .gt => decide (m < n)
  | .le => decide (n ≤ m)
  | .ge => decide (m ≤ n)

/-- `_EdgeGeneric_RichCompareValues` from `edgedb/datatypes/comp.c`,
parameterised by the host equality test `eqv` (which may fail) and the
host generic rich comparison `cmpv` used on the first differing pair. -/
def EdgeGeneric_RichCompareValues {V : Type} (eqv : V → V → Option Bool)
    (cmpv : V → V → CmpOp → Option Bool) (l r : List V) (op : CmpOp) :
    Option Bool :=
  if l.length ≠ r.length ∧ (op = .eq ∨ op = .ne) then
    some (decide (op = .ne))
  else
    match rcWalk eqv l r with
    | none => none
    | some none => some (lengthCmpBool l.length r.length op)
    | some (some (a, b)) =>
      match op with
      | .eq => some false
      | .ne => some true
      | _ => cmpv a b op

/-- The first index (within the common length) whose pair fails the
host equality test with `true` — the "first index where elements are
unequal" of the specification, stated independently of the scanning
loop. -/
def specFirstDiff {V : Type} (eqv : V → V → Option Bool) :
    List (V × V) → Option Nat
  | [] => none
  | (a, b) :: rest =>
    if eqv a b ≠ some true then some 0
    else (specFirstDiff eqv rest).map (· + 1)

/-- The specification-level description of generic rich comparison:
short-circuit a length mismatch for EQ/NE; otherwise locate the first
differing index within the common length, propagating an
element-equality failure found there; with no differing index the
result compares the lengths; with a differing index EQ/NE resolve to
false/true and ordering operators delegate to the generic comparison
of that first differing pair. -/
def richCompareSpec {V : Type} (eqv : V → V → Option Bool)
    (cmpv : V → V → CmpOp → Option Bool) (l r : List V) (op : CmpOp) :
    Option Bool :=
  if l.length ≠ r.length ∧ (op = .eq ∨ op = .ne) then
    some (decide (op = .ne))
  else
    match specFirstDiff eqv (l.zip r) with
    | none => some (lengthCmpBool l.length r.length op)
    | some i =>
      match (l.zip r).get? i with
      | none => none
      | some (a, b) =>
        match eqv a b with
        | none => none
        | some _ =>
          match op with
          | .eq => some false
          | .ne => some true
          | _ => cmpv a b op

theorem rcCore_eq {V : Type} (eqv : V → V → Option Bool)
    (cmpv : V → V → CmpOp → Option Bool) (op : CmpOp) :
    ∀ (l r : List V) (n m : Nat),
    (match rcWalk eqv l r with
     | none => none
     | some none => some (lengthCmpBool (l.length + n) (r.length + m) op)
     | some (some (a, b)) =>
       match op with
       | .eq => some false
       | .ne => some true
       | _ => cmpv a b op) =
    (match specFirstDiff eqv (l.zip r) with
     | none => some (lengthCmpBool (l.length + n) (r.length + m) op)
     | some i =>
       match (l.zip r).get? i with
       | none => none
       | some (a, b) =>
         match eqv a b with
         | none => none
         | some _ =>
           match op with
           | .eq => some false
           | .ne => some true
           | _ => cmpv a b op) := by
  intro l
  induction l with
  | nil =>
    intro r n m
    cases r <;> simp [rcWalk, specFirstDiff]
  | cons a l ih =>
    intro r n m
    cases r with
    | nil => simp [rcWalk, specFirstDiff]
    | cons b r =>
      simp only [rcWalk, List.zip_cons_cons, specFirstDiff]
      cases heq : eqv a b with
      | none => simp [heq]
      | some bb =>
        cases bb with
        | false => simp [heq]
        | true =>
          simp only [heq, ne_eq, not_true_eq_false, if_neg, ite_false,
            reduceIte, List.length_cons]
          rw [show l.length + 1 + n = l.length + (n + 1) from by omega,
            show r.length + 1 + m = r.length + (m + 1) from by omega]
          rw [ih r (n + 1) (m + 1)]
          simp only [List.zip]
          cases hs : specFirstDiff eqv (List.zipWith Prod.mk l r) with
          | none => simp [hs]
          | some i => simp [hs]

/-- C7: the comp.c comparison equals its specification — it
short-circuits a length mismatch for EQ/NE without consulting elements,
otherwise walks to the first index where elements are unequal
(propagating an element-equality failure), compares lengths when no
differing index exists within the common length, and for ordering
operators delegates to the generic rich comparison of the first
differing pair. -/
theorem c7_rich_compare_matches_spec {V : Type} (eqv : V → V → Option Bool)
    (cmpv : V → V → CmpOp → Option Bool) (l r : List V) (op : CmpOp) :
    EdgeGeneric_RichCompareValues eqv cmpv l r op =
      richCompareSpec eqv cmpv l r op := by
  unfold EdgeGeneric_RichCompareValues richCompareSpec
  by_cases hc : l.length ≠ r.length ∧ (op = .eq ∨ op = .ne)
  · rw [if_pos hc, if_pos hc]
  · rw [if_neg hc, if_neg hc]
    have h := rcCore_eq eqv cmpv op l r 0 0
    simpa using h

/-- 64-bit unsigned modulus (`Py_uhash_t` arithmetic). -/
def U64MOD : Nat := 2 ^ 64

/-- `_PyHASH_XXPRIME_1` (64-bit build). -/
def xxPrime1 : Nat := 11400714785074694791

/-- `_PyHASH_XXPRIME_2` (64-bit build). -/
def xxPrime2 : Nat := 14029467366897019727

/-- `_PyHASH_XXPRIME_5` (64-bit build). -/
def xxPrime5 : Nat := 2870177450012600261

/-- `_PyHASH_XXROTATE`: rotate left 31 bits on a 64-bit value. -/
def xxRotate (x : Nat) : Nat := ((x <<< 31) % U64MOD) ||| (x >>> 33)

/-- The accumulation loop of `_EdgeGeneric_Hash` (hash.c, CPython's
tuple-hash xxHash variant); a host element-hash failure (`-1`, i.e.
`2^64 - 1` unsigned) propagates as `none`. -/
def edgeGenericHashLoop {V : Type} (hashEl : V → Nat) :
    List V → Nat → Option Nat
  | [], acc => some acc
  | el :: rest, acc =>
    let lane := hashEl el % U64MOD
    if lane = U64MOD - 1 then none
    else
      edgeGenericHashLoop hashEl rest
        ((xxRotate ((acc + lane * xxPrime2) % U64MOD) * xxPrime1) % U64MOD)

/-- `_EdgeGeneric_Hash` from hash.c: the loop seeded with
`_PyHASH_XXPRIME_5`, then the length mangling, then the reserved-value
remap (`(Py_uhash_t)-1 -> 1546275796`). -/
def EdgeGeneric_Hash {V : Type} (hashEl : V → Nat) (els : List V) :
    Option Nat :=
  match edgeGenericHashLoop hashEl els xxPrime5 with
  | none => none
  | some acc =>
    let acc1 := (acc + (els.length ^^^ (xxPrime5 ^^^ 3527539))) % U64MOD
    if acc1 = U64MOD - 1 then some 1546275796 else some acc1

/-- `_PyHASH_MULTIPLIER`. -/
def pyHashMultiplier : Nat := 1000003

/-- `_EdgeGeneric_HashWithBase` from hash.c: one extra combiner round
mixing the type-identity base hash with the element-sequence hash
(roughly `hash((base_hash, *els))`), with the `-1 -> -2` remap. -/
def EdgeGeneric_HashWithBase {V : Type} (hashEl : V → Nat) (base : Nat)
    (els : List V) : Option Nat :=
  match EdgeGeneric_Hash hashEl els with
  | none => none
  | some elsHash =>
    let x1 := ((0x345678 ^^^ base) * pyHashMultiplier) % U64MOD
    let mult2 := (pyHashMultiplier + (82520 + 4)) % U64MOD
    let x2 := ((x1 ^^^ elsHash) * mult2) % U64MOD
    let x3 := (x2 + 97531) % U64MOD
    if x3 = U64MOD - 1 then some (U64MOD - 2) else some x3

/-- An `edgedb.Set` (`EdgeSetObject`): a growable ordered sequence of
values backed by a host list. -/
structure EdgeSetObj (V : Type) where
  els : List V
deriving DecidableEq, Repr

/-- `EdgeSet_AppendItem`. -/
def EdgeSet_AppendItem {V : Type} (s : EdgeSetObj V) (el : V) :
    EdgeSetObj V := ⟨s.els ++ [el]⟩

/-- A Set populated by appending the given elements, in order, onto
`EdgeSet_New(0)`. -/
def setFromAppends {V : Type} (l : List V) : EdgeSetObj V :=
  l.foldl EdgeSet_AppendItem ⟨[]⟩

theorem setFromAppends_els {V : Type} (l : List V) :
    (setFromAppends l).els = l := by
  have haux : ∀ (xs : List V) (acc : EdgeSetObj V),
      (xs.foldl EdgeSet_AppendItem acc).els = acc.els ++ xs := by
    intro xs
    induction xs with
    | nil => intro acc; simp
    | cons x xs ih =>
      intro acc
      simp [List.foldl_cons, ih, EdgeSet_AppendItem]
  simpa using haux l ⟨[]⟩

/-- `set_hash` (set.c): `_EdgeGeneric_HashWithBase` over the elements in
stored order, salted with the Set type's base hash.  The `cached_hash`
field only memoises this pure computation. -/
def set_hash {V : Type} (hashEl : V → Nat) (baseHash : Nat)
    (s : EdgeSetObj V) : Option Nat :=
  EdgeGeneric_HashWithBase hashEl baseHash s.els

/-- The right operand of `set_richcompare`: a plain host list
(`PyList_CheckExact`), another `edgedb.Set`, or any other host value. -/
inductive SetCmpArg (V : Type) where
  | pylist (l : List V)
  | eset (s : EdgeSetObj V)
  | other
deriving DecidableEq, Repr

/-- `PyObject_RichCompare` on two host lists, reached from
`set_richcompare` only with EQ/NE (the op was checked first): standard
element-wise list equality.  Ordering operators never reach this
delegation, so they are left unmodelled (`none`). -/
def pyListRichCompare {V : Type} [DecidableEq V] (a b : List V) :
    CmpOp → Option Bool
  | .eq => some (decide (a = b))
  | .ne => some (decide (a ≠ b))
  | _ => none

/-- The shared `done:` tail of `set_richcompare`: negate for NE. -/
def setCmpFinish (op : CmpOp) (res : Bool) : Option Bool :=
  some (if op = .ne then !res else res)

/-- `set_richcompare` from `edgedb/protocol/datatypes/set.c`: only EQ/NE
are implemented; a plain host list operand delegates to host list
comparison in stored order; a Set operand requires equal lengths, then
compares the backing lists directly when the length is 1 and otherwise
compares sorted copies (`PyList_GetSlice` + `PyList_Sort`, modelled as
`List.insertionSort` by the values' natural order). -/
def set_richcompare {V : Type} [LinearOrder V] (v : EdgeSetObj V)
    (w : SetCmpArg V) (op : CmpOp) : Option Bool :=
  if op ≠ .eq ∧ op ≠ .ne then none
  else
    match w with
    | .pylist l => pyListRichCompare v.els l op
    | .other => none
    | .eset w =>
      if v.els.length ≠ w.els.length then setCmpFinish op false
      else if v.els.length = 1 then
        setCmpFinish op (decide (v.els = w.els))
      else
        setCmpFinish op (decide (List.insertionSort (· ≤ ·) v.els =
          List.insertionSort (· ≤ ·) w.els))

/-- C2: two Sets with the same multiset of elements (duplicates
included) compare equal — equal lengths are required, singletons compare
their sole elements, longer Sets compare sorted copies — and two Sets
populated by appending the same elements in the same order have equal
hashes when each hash is computed on the resulting state. -/
theorem c2_set_multiset_eq {V : Type} [LinearOrder V] (s t : EdgeSetObj V)
    (hperm : s.els.Perm t.els) :
    set_richcompare s (.eset t) .eq = some true ∧
    (∀ (hashEl : V → Nat) (baseHash : Nat) (ls : List V),
      s = setFromAppends ls → t = setFromAppends ls →
      set_hash hashEl baseHash s = set_hash hashEl baseHash t) := by
  constructor
  · unfold set_richcompare
    rw [if_neg (by simp)]
    simp only
    have hlen : s.els.length = t.els.length := hperm.length_eq
    rw [if_neg (by omega)]
    by_cases h1 : s.els.length = 1
    · rw [if_pos h1]
      obtain ⟨a, ha⟩ := List.length_eq_one.mp h1
      have ht : t.els = [a] := by
        have hp := hperm
        rw [ha] at hp
        exact (List.singleton_perm.mp hp).symm
      rw [ha, ht]
      simp [setCmpFinish]
    · rw [if_neg h1]
      have hsort : List.insertionSort (· ≤ ·) s.els =
          List.insertionSort (· ≤ ·) t.els := by
        have hs1 := List.sorted_insertionSort (α := V) (· ≤ ·) s.els
        have hs2 := List.sorted_insertionSort (α := V) (· ≤ ·) t.els
        have hp : (List.insertionSort (· ≤ ·) s.els).Perm
            (List.insertionSort (· ≤ ·) t.els) :=
          (List.perm_insertionSort _ _).trans
            (hperm.trans (List.perm_insertionSort _ _).symm)
        exact List.eq_of_perm_of_sorted hp hs1 hs2
      simp [hsort, setCmpFinish]
  · intro hashEl baseHash ls hs ht
    rw [hs, ht]

/-- Witness for C2: Sets populated by appending `[1, 2, 3]` and
`[3, 2, 1]` compare equal, and the hash is reproducible for the
append-order `[1, 2, 3]`. -/
theorem c2_set_multiset_eq_witness :
    set_richcompare (V := Int) (setFromAppends [1, 2, 3])
      (.eset (setFromAppends [3, 2, 1])) .eq = some true ∧
    set_hash (fun n : Int => n.natAbs) 17 (setFromAppends [1, 2, 3]) =
      set_hash (fun n : Int => n.natAbs) 17 (setFromAppends [1, 2, 3]) :=
  ⟨(c2_set_multiset_eq (setFromAppends [1, 2, 3]) (setFromAppends [3, 2, 1])
      (by rw [setFromAppends_els, setFromAppends_els]; decide)).1,
   (c2_set_multiset_eq (setFromAppends [1, 2, 3]) (setFromAppends [1, 2, 3])
      (List.Perm.refl _)).2 (fun n : Int => n.natAbs) 17 [1, 2, 3] rfl rfl⟩

/-- C10: comparing a Set against a plain host list delegates to
element-wise list comparison in stored order, so it is order-sensitive:
the Set holding `[1, 2]` equals the list `[1, 2]` but not the list
`[2, 1]`, although it equals the Set holding `[2, 1]` — and that Set
equals the list `[2, 1]`, so Set equality is not transitive across the
Set and list operand kinds. -/
theorem c10_set_list_order_sensitive :
    (∀ (els l : List Int),
      set_richcompare ⟨els⟩ (.pylist l) .eq = some (decide (els = l))) ∧
    set_richcompare (V := Int) ⟨[1, 2]⟩ (.pylist [1, 2]) .eq = some true ∧
    set_richcompare (V := Int) ⟨[1, 2]⟩ (.pylist [2, 1]) .eq = some false ∧
    set_richcompare (V := Int) ⟨[1, 2]⟩ (.eset ⟨[2, 1]⟩) .eq = some true ∧
    set_richcompare (V := Int) ⟨[2, 1]⟩ (.pylist [2, 1]) .eq = some true := by
  refine ⟨fun els l => rfl, by decide, by decide, by decide, by decide⟩

/-- Modelled from the spec: `at_sign_ptr`, the string the gel
`object_getitem` prefix-matches against, is initialised by module set-up
code outside the provided sources; the specification's "@"-prefix
convention (§4.5) and the glossary's `@name` addressing convention fix
it to `"@"`. -/
def at_sign : String := "@"

/-- `PyUnicode_Tailmatch(name, at_sign_ptr, 0, PY_SSIZE_T_MAX, -1)`:
does the string start with the given marker (direction `-1` anchors the
match at the start). -/
def strStartsWith (s pre : String) : Bool := pre.data.isPrefixOf s.data

/-- `object_getitem` from `gel/datatypes/object.c`: `Property` keys are
a `TypeError` (dot notation required), `LinkProp` keys resolve to the
object's value at that position, an absent key is a `KeyError` when it
starts with `"@"` and otherwise a `TypeError` demanding the `"@"`
prefix, and `Link` keys are a `TypeError` (dot notation required).  The
slot read cannot go out of range on a published object, so it is
modelled with a defaulted read. -/
def object_getitem {V : Type} [Inhabited V] (o : EdgeObj V)
    (name : String) : Except PyErr V :=
  match EdgeRecordDesc_Lookup o.desc name with
  | .property _ =>
    .error (.typeError "property should be accessed via dot notation")
  | .linkprop pos => .ok (o.items.getD pos default)
  | .notFound =>
    if strStartsWith name at_sign then
      .error (.keyError "link property does not exist")
    else
      .error (.typeError "link property should be accessed with @ prefix")
  | .link _ =>
    .error (.typeError "link should be accessed via dot notation")

/-- Counterexample for C6: on an object whose descriptor classifies the
key `"friend"` as a Link, item subscripting raises a `TypeError`
directing to dot notation instead of returning the Link field directly,
so the claim's "returns Link fields directly" is false. -/
theorem c6_getitem_counterexample :
    EdgeRecordDesc_Lookup
      ⟨["id", "friend"], [0, 4], [("id", 0), ("friend", 1)], 0⟩ "friend" =
      .link 1 ∧
    object_getitem (V := Int)
      ⟨⟨["id", "friend"], [0, 4], [("id", 0), ("friend", 1)], 0⟩, [10, 20]⟩
      "friend" =
      .error (.typeError "link should be accessed via dot notation") := by
  exact ⟨rfl, rfl⟩

/-- C6 (amended): item subscripting treats a `Property` key as illegal
(a `TypeError` directing to attribute syntax), also rejects a `Link` key
with a `TypeError` directing to dot notation (it does not return the
field), resolves a `LinkProp` key to the object's value at the stored
position, and distinguishes absent keys by the `"@"` prefix: an absent
key starting with `"@"` raises a `KeyError`, any other absent key raises
a `TypeError` demanding the `"@"` prefix. -/
theorem c6_getitem_classification {V : Type} [Inhabited V]
    (o : EdgeObj V) (name : String) :
    (∀ pos, EdgeRecordDesc_Lookup o.desc name = .property pos →
      object_getitem o name =
        .error (.typeError "property should be accessed via dot notation")) ∧
    (∀ pos, EdgeRecordDesc_Lookup o.desc name = .linkprop pos →
      object_getitem o name = .ok (o.items.getD pos default)) ∧
    (EdgeRecordDesc_Lookup o.desc name = .notFound →
      object_getitem o name = .error
        (if strStartsWith name at_sign then
          .keyError "link property does not exist"
         else .typeError "link property should be accessed with @ prefix")) ∧
    (∀ pos, EdgeRecordDesc_Lookup o.desc name = .link pos →
      object_getitem o name =
        .error (.typeError "link should be accessed via dot notation")) := by
  refine ⟨?_, ?_, ?_, ?_⟩
  · intro pos h
    unfold object_getitem
    rw [h]
  · intro pos h
    unfold object_getitem
    rw [h]
  · intro h
    unfold object_getitem
    rw [h]
    by_cases hp : strStartsWith name at_sign
    · rw [if_pos hp, if_pos hp]
    · rw [if_neg hp, if_neg hp]
  · intro pos h
    unfold object_getitem
    rw [h]

/-- Witness for C6 (amended): one descriptor exercising all four key
classifications. -/
theorem c6_getitem_classification_witness :
    object_getitem (V := Int)
      ⟨⟨["id", "@weight", "friend", "nm"], [0, 2, 4, 0],
        [("id", 0), ("@weight", 1), ("friend", 2), ("nm", 3)], 0⟩,
       [1, 2, 3, 4]⟩ "@weight" = .ok 2 ∧
    object_getitem (V := Int)
      ⟨⟨["id", "@weight", "friend", "nm"], [0, 2, 4, 0],
        [("id", 0), ("@weight", 1), ("friend", 2), ("nm", 3)], 0⟩,
       [1, 2, 3, 4]⟩ "nm" =
      .error (.typeError "property should be accessed via dot notation") ∧
    object_getitem (V := Int)
      ⟨⟨["id", "@weight", "friend", "nm"], [0, 2, 4, 0],
        [("id", 0), ("@weight", 1), ("friend", 2), ("nm", 3)], 0⟩,
       [1, 2, 3, 4]⟩ "@absent" =
      .error (.keyError "link property does not exist") ∧
    object_getitem (V := Int)
      ⟨⟨["id", "@weight", "friend", "nm"], [0, 2, 4, 0],
        [("id", 0), ("@weight", 1), ("friend", 2), ("nm", 3)], 0⟩,
       [1, 2, 3, 4]⟩ "absent" =
      .error (.typeError "link property should be accessed with @ prefix") := by
  refine ⟨?_, ?_, ?_, ?_⟩
  · exact ((c6_getitem_classification
      ⟨⟨["id", "@weight", "friend", "nm"], [0, 2, 4, 0],
        [("id", 0), ("@weight", 1), ("friend", 2), ("nm", 3)], 0⟩,
       [(1 : Int), 2, 3, 4]⟩ "@weight").2.1 1 rfl).trans (by rfl)
  · exact (c6_getitem_classification
      ⟨⟨["id", "@weight", "friend", "nm"], [0, 2, 4, 0],
        [("id", 0), ("@weight", 1), ("friend", 2), ("nm", 3)], 0⟩,
       [(1 : Int), 2, 3, 4]⟩ "nm").1 3 rfl
  · exact ((c6_getitem_classification
      ⟨⟨["id", "@weight", "friend", "nm"], [0, 2, 4, 0],
        [("id", 0), ("@weight", 1), ("friend", 2), ("nm", 3)], 0⟩,
       [(1 : Int), 2, 3, 4]⟩ "@absent").2.2.1 rfl).trans (by rfl)
  · exact ((c6_getitem_classification
      ⟨⟨["id", "@weight", "friend", "nm"], [0, 2, 4, 0],
        [("id", 0), ("@weight", 1), ("friend", 2), ("nm", 3)], 0⟩,
       [(1 : Int), 2, 3, 4]⟩ "absent").2.2.1 rfl).trans (by rfl)

theorem object_richcompare_valid {V : Type} [LinearOrder V] [Inhabited V]
    (v w : EdgeObj V) (hv : validIdPos v) (hw : validIdPos w) (op : CmpOp) :
    object_richcompare v w op =
      .ok (hostCmp (objectIdVal v) (objectIdVal w) op) := by
  obtain ⟨hv1, hv2⟩ := hv
  obtain ⟨hw1, hw2⟩ := hw
  unfold object_richcompare
  rw [if_neg (by omega)]

/-- An `edgedb.Link` (`EdgeLinkObject`): a relationship name together
with its source and target Objects. -/
structure EdgeLink (V : Type) where
  name : String
  source : EdgeObj V
  target : EdgeObj V
deriving DecidableEq, Repr

/-- `object_hash` (object.c): `_EdgeGeneric_HashWithBase` over all item
slots, salted with the Object type's base hash (`cached_hash` only
memoises the value). -/
def object_hash {V : Type} (hashEl : V → Nat) (baseHashObj : Nat)
    (o : EdgeObj V) : Option Nat :=
  EdgeGeneric_HashWithBase hashEl baseHashObj o.items

/-- `link_hash` from `edgedb/datatypes/link.c`: the Link type's base
hash XORed with the source Object's hash and then the target Object's
hash, with the final `-1 -> -2` remap.  The Link's name is never
hashed. -/
def link_hash {V : Type} (hashEl : V → Nat) (baseHashObj baseHashLink : Nat)
    (l : EdgeLink V) : Option Nat :=
  match object_hash hashEl baseHashObj l.source with
  | none => none
  | some sh =>
    match object_hash hashEl baseHashObj l.target with
    | none => none
    | some th =>
      let h := (baseHashLink ^^^ sh) ^^^ th
      if h = U64MOD - 1 then some (U64MOD - 2) else some h

/-- Result of a rich-compare slot that can also return
`Py_NotImplemented`. -/
inductive RichRes where
  | notImplemented
  | ok (b : Bool)
  | err (e : PyErr)
deriving DecidableEq, Repr

/-- The shared `done:` tail of `link_richcompare`: negate for NE. -/
def linkCmpFinish (op : CmpOp) (res : Bool) : RichRes :=
  .ok (if op = .ne then !res else res)

/-- `link_richcompare` from `edgedb/datatypes/link.c`: only EQ/NE are
implemented; the names are compared first (host string equality), then
the source Objects, then the target Objects (each through
`PyObject_RichCompareBool(..., Py_EQ)`, i.e. the Objects' own id-based
equality, whose failure propagates), stopping at the first inequality. -/
def link_richcompare {V : Type} [LinearOrder V] [Inhabited V]
    (v w : EdgeLink V) (op : CmpOp) : RichRes :=
  if op ≠ .eq ∧ op ≠ .ne then .notImplemented
  else
    if v.name ≠ w.name then linkCmpFinish op false
    else
      match object_richcompare v.source w.source .eq with
      | .error e => .err e
      | .ok b =>
        if b = false then linkCmpFinish op false
        else
          match object_richcompare v.target w.target .eq with
          | .error e => .err e
          | .ok b2 => linkCmpFinish op b2

/-- Counterexample for C8: two Links sharing source and target but with
different names have equal hashes — `link_hash` never consumes the
name, so the claim's "two Links differing only in name have different
hash inputs" is false. -/
theorem c8_link_hash_counterexample :
    ("a" : String) ≠ ("b" : String) ∧
    link_hash (fun n : Int => n.natAbs) 1000 7777
      ⟨"a", ⟨⟨["id"], [0], [("id", 0)], 0⟩, [1]⟩,
            ⟨⟨["id"], [0], [("id", 0)], 0⟩, [2]⟩⟩ =
    link_hash (fun n : Int => n.natAbs) 1000 7777
      ⟨"b", ⟨⟨["id"], [0], [("id", 0)], 0⟩, [1]⟩,
            ⟨⟨["id"], [0], [("id", 0)], 0⟩, [2]⟩⟩ := by
  exact ⟨by decide, rfl⟩

/-- C8 (amended): Link equality combines all three components — two
Links (with valid id positions throughout) are equal exactly when their
names are equal and their sources and targets are id-equal — but
`link_hash` combines only the source and target Object hashes XORed
into the Link type's base hash: the name is not part of the hash input,
so two Links differing only in name hash identically. -/
theorem c8_link_eq_hash {V : Type} [LinearOrder V] [Inhabited V]
    (v w : EdgeLink V) (hv1 : validIdPos v.source) (hv2 : validIdPos v.target)
    (hw1 : validIdPos w.source) (hw2 : validIdPos w.target) :
    (link_richcompare v w .eq = .ok true ↔
      (v.name = w.name ∧ objectIdVal v.source = objectIdVal w.source ∧
        objectIdVal v.target = objectIdVal w.target)) ∧
    (∀ (hashEl : V → Nat) (b1 b2 : Nat) (n1 n2 : String)
       (s t : EdgeObj V),
      link_hash hashEl b1 b2 ⟨n1, s, t⟩ = link_hash hashEl b1 b2 ⟨n2, s, t⟩) := by
  constructor
  · unfold link_richcompare
    rw [if_neg (by simp)]
    by_cases hn : v.name = w.name
    · rw [if_neg (by simpa using hn)]
      rw [object_richcompare_valid v.source w.source hv1 hw1 .eq]
      simp only [hostCmp]
      by_cases hsrc : objectIdVal v.source = objectIdVal w.source
      · rw [object_richcompare_valid v.target w.target hv2 hw2 .eq]
        simp [linkCmpFinish, hostCmp, hn, hsrc]
      · simp [linkCmpFinish, hsrc, hn]
    · rw [if_pos (by simpa using hn)]
      simp [linkCmpFinish, hn]
  · intro hashEl b1 b2 n1 n2 s t
    rfl

/-- Witness for C8 (amended): a Link compared with itself is equal, and
the hash ignores the name on a concrete pair. -/
theorem c8_link_eq_hash_witness :
    link_richcompare (V := Int)
      ⟨"knows", ⟨⟨["id"], [0], [("id", 0)], 0⟩, [1]⟩,
                ⟨⟨["id"], [0], [("id", 0)], 0⟩, [2]⟩⟩
      ⟨"knows", ⟨⟨["id"], [0], [("id", 0)], 0⟩, [1]⟩,
                ⟨⟨["id"], [0], [("id", 0)], 0⟩, [2]⟩⟩
      .eq = .ok true ∧
    link_hash (fun n : Int => n.natAbs) 1000 7777
      ⟨"x", ⟨⟨["id"], [0], [("id", 0)], 0⟩, [1]⟩,
            ⟨⟨["id"], [0], [("id", 0)], 0⟩, [2]⟩⟩ =
    link_hash (fun n : Int => n.natAbs) 1000 7777
      ⟨"y", ⟨⟨["id"], [0], [("id", 0)], 0⟩, [1]⟩,
            ⟨⟨["id"], [0], [("id", 0)], 0⟩, [2]⟩⟩ := by
  constructor
  · exact ((c8_link_eq_hash
      ⟨"knows", ⟨⟨["id"], [0], [("id", 0)], 0⟩, [1]⟩,
                ⟨⟨["id"], [0], [("id", 0)], 0⟩, [2]⟩⟩
      ⟨"knows", ⟨⟨["id"], [0], [("id", 0)], 0⟩, [1]⟩,
                ⟨⟨["id"], [0], [("id", 0)], 0⟩, [2]⟩⟩
      (by constructor <;> decide) (by constructor <;> decide)
      (by constructor <;> decide) (by constructor <;> decide)).1).mpr
      ⟨rfl, rfl, rfl⟩
  · exact (c8_link_eq_hash
      (V := Int)
      ⟨"x", ⟨⟨["id"], [0], [("id", 0)], 0⟩, [1]⟩,
            ⟨⟨["id"], [0], [("id", 0)], 0⟩, [2]⟩⟩
      ⟨"y", ⟨⟨["id"], [0], [("id", 0)], 0⟩, [1]⟩,
            ⟨⟨["id"], [0], [("id", 0)], 0⟩, [2]⟩⟩
      (by constructor <;> decide) (by constructor <;> decide)
      (by constructor <;> decide) (by constructor <;> decide)).2
      (fun n : Int => n.natAbs) 1000 7777 "x" "y"
      ⟨⟨["id"], [0], [("id", 0)], 0⟩, [1]⟩
      ⟨⟨["id"], [0], [("id", 0)], 0⟩, [2]⟩
